import Mathlib

set_option maxHeartbeats 1000000

/-!
Verification of the generation/response pipeline and the JSON history store of
`Lecture-to-notes/backend_core.py`.

The embedding works at two levels:

* String level: Python's `json.loads` (restricted to the JSON values the
  application produces: null, booleans, integers, strings, arrays, objects;
  floats and the non-standard `NaN`/`Infinity` literals are outside the model),
  `json.dumps` with its default settings (`ensure_ascii=True`, separators
  `", "` and `": "`), and the response-cleaning chain
  `text.strip().replace("```json", "").strip("`")` from `generate_content`,
  all modelled as functions on `List Char` / `String`.

* For the history store, the read-modify-write cycle of `save_history` /
  `load_history` is modelled by explicit state passing.  `load_history`
  itself is embedded at the string level (`load_history` below); for chains of
  `save_history` calls the file is abstracted by the JSON value its text parses
  to (`HistoryFile`), because `save_history` only ever writes `json.dump` of a
  value, which `json.load` inverts.
-/

namespace LectureToNotes

/-- JSON values as produced and consumed by Python's `json` module, restricted
to the shapes this application produces (floats are outside the model; the
history entries, schemas and quiz/flashcard payloads use only these shapes). -/
inductive Json where
  | null
  | bool (b : Bool)
  | num (n : Int)
  | str (s : String)
  | arr (xs : List Json)
  | obj (ms : List (String × Json))

/-- Opening curly brace as a character. -/
def lbrace : Char := Char.ofNat 123

/-- Closing curly brace as a character. -/
def rbrace : Char := Char.ofNat 125

/-- Lower-case hexadecimal digit, as used by Python's `json.dumps` escapes. -/
def hexDigitChar (n : Nat) : Char :=
  if n < 10 then Char.ofNat (48 + n) else Char.ofNat (87 + n)

/-- Four zero-padded lower-case hex digits of `n % 65536`. -/
def hex4 (n : Nat) : List Char :=
  [hexDigitChar (n / 4096 % 16), hexDigitChar (n / 256 % 16),
   hexDigitChar (n / 16 % 16), hexDigitChar (n % 16)]

/-- Escaping of one character exactly as `json.dumps` does with its default
`ensure_ascii=True`: short escapes for the common control characters, `\uXXXX`
for remaining control and all non-ASCII characters, surrogate pairs above the
BMP. -/
def escChar (c : Char) : List Char :=
  if c == '"' then ['\\', '"']
  else if c == '\\' then ['\\', '\\']
  else if c == '\n' then ['\\', 'n']
  else if c == '\r' then ['\\', 'r']
  else if c == '\t' then ['\\', 't']
  else if c.toNat == 8 then ['\\', 'b']
  else if c.toNat == 12 then ['\\', 'f']
  else if c.toNat < 32 then '\\' :: 'u' :: hex4 c.toNat
  else if c.toNat < 127 then [c]
  else if c.toNat < 65536 then '\\' :: 'u' :: hex4 c.toNat
  else
    let v := c.toNat - 65536
    ('\\' :: 'u' :: hex4 (55296 + v / 1024)) ++ ('\\' :: 'u' :: hex4 (56320 + v % 1024))

/-- JSON string literal for `s`, quotes included (`json.dumps` on a `str`). -/
def escapeString (s : String) : String :=
  String.mk ('"' :: s.data.foldr (fun c acc => escChar c ++ acc) ['"'])

/-- Decimal digits of `n`, most significant first (`fuel ≥ n + 1` suffices). -/
def natToStrAux : Nat → Nat → List Char
  | 0, _ => []
  | fuel + 1, n =>
    if n < 10 then [Char.ofNat (48 + n)]
    else natToStrAux fuel (n / 10) ++ [Char.ofNat (48 + n % 10)]

/-- Decimal rendering of a natural number. -/
def natToStr (n : Nat) : String := String.mk (natToStrAux (n + 1) n)

/-- Decimal rendering of a Python `int`. -/
def intToStr (i : Int) : String :=
  match i with
  | Int.ofNat n => natToStr n
  | Int.negSucc n => "-" ++ natToStr (n + 1)

/-- Python's `", ".join`-style item separator used by `json.dumps` with its
default separators. -/
def joinComma : List String → String
  | [] => ""
  | [x] => x
  | x :: xs => x ++ ", " ++ joinComma xs

/-- Serialization of a JSON value exactly as `json.dumps(value)` with default
arguments renders it: `", "` between items, `": "` after keys, `ensure_ascii`
escaping. -/
def dumps : Json → String
  | .null => "null"
  | .bool true => "true"
  | .bool false => "false"
  | .num i => intToStr i
  | .str s => escapeString s
  | .arr xs => "[" ++ joinComma (xs.attach.map (fun x => dumps x.1)) ++ "]"
  | .obj ms =>
    String.mk [lbrace] ++
      joinComma (ms.attach.map (fun m => escapeString m.1.1 ++ ": " ++ dumps m.1.2)) ++
      String.mk [rbrace]
decreasing_by
  · simp_wf
    have := List.sizeOf_lt_of_mem x.2
    omega
  · simp_wf
    have h1 := List.sizeOf_lt_of_mem m.2
    obtain ⟨⟨a, b⟩, hm⟩ := m
    simp at h1 ⊢
    omega

/-- Whitespace characters the JSON grammar allows between tokens. -/
def isJsonWs (c : Char) : Bool := c == ' ' || c == '\t' || c == '\n' || c == '\r'

/-- Skip JSON whitespace. -/
def skipWs (l : List Char) : List Char := l.dropWhile isJsonWs

/-- Remove JSON whitespace from both ends; `json.loads` skips exactly this
whitespace before the document value and after it. -/
def trimJson (l : List Char) : List Char :=
  ((l.dropWhile isJsonWs).reverse.dropWhile isJsonWs).reverse

/-- Value of one hexadecimal digit. -/
def hexVal (c : Char) : Option Nat :=
  let n := c.toNat
  if 48 ≤ n ∧ n ≤ 57 then some (n - 48)
  else if 97 ≤ n ∧ n ≤ 102 then some (n - 87)
  else if 65 ≤ n ∧ n ≤ 70 then some (n - 55)
  else none

/-- Body of a JSON string literal (the opening quote already consumed), with
the escape sequences `json.loads` accepts in strict mode; unescaped control
characters are rejected, `\uXXXX` escapes are decoded with surrogate-pair
recombination (lone surrogates, which Lean characters cannot represent, fail). -/
def parseStrAux : List Char → List Char → Option (String × List Char)
  | _, [] => none
  | acc, c :: t =>
    if c == '"' then some (String.mk acc.reverse, t)
    else if c == '\\' then
      match t with
      | 'u' :: h1 :: h2 :: h3 :: h4 :: t2 =>
        match hexVal h1, hexVal h2, hexVal h3, hexVal h4 with
        | some a, some b, some c3, some d =>
          let v := ((a * 16 + b) * 16 + c3) * 16 + d
          if 55296 ≤ v ∧ v ≤ 56319 then
            match t2 with
            | '\\' :: 'u' :: g1 :: g2 :: g3 :: g4 :: t3 =>
              match hexVal g1, hexVal g2, hexVal g3, hexVal g4 with
              | some e, some f, some g, some h =>
                let w := ((e * 16 + f) * 16 + g) * 16 + h
                if 56320 ≤ w ∧ w ≤ 57343 then
                  parseStrAux
                    (Char.ofNat (65536 + (v - 55296) * 1024 + (w - 56320)) :: acc) t3
                else none
              | _, _, _, _ => none
            | _ => none
          else if 56320 ≤ v ∧ v ≤ 57343 then none
          else parseStrAux (Char.ofNat v :: acc) t2
        | _, _, _, _ => none
      | e :: t2 =>
        if e == '"' then parseStrAux ('"' :: acc) t2
        else if e == '\\' then parseStrAux ('\\' :: acc) t2
        else if e == '/' then parseStrAux ('/' :: acc) t2
        else if e == 'b' then parseStrAux (Char.ofNat 8 :: acc) t2
        else if e == 'f' then parseStrAux (Char.ofNat 12 :: acc) t2
        else if e == 'n' then parseStrAux ('\n' :: acc) t2
        else if e == 'r' then parseStrAux ('\r' :: acc) t2
        else if e == 't' then parseStrAux ('\t' :: acc) t2
        else none
      | [] => none
    else if c.toNat < 32 then none
    else parseStrAux (c :: acc) t

/-- Value of a non-empty digit string. -/
def digitsToNat (l : List Char) : Nat :=
  l.foldl (fun a c => a * 10 + (c.toNat - 48)) 0

/-- Finish parsing an integer: the JSON grammar hands a number ending in `.`,
`e` or `E` to the float parser, which is outside this model. -/
def numGuard (neg : Bool) (v : Nat) (rest : List Char) : Option (Json × List Char) :=
  match rest with
  | r :: _ =>
    if r == '.' || r == 'e' || r == 'E' then none
    else some (.num (if neg then -(v : Int) else (v : Int)), rest)
  | [] => some (.num (if neg then -(v : Int) else (v : Int)), [])

/-- JSON integer literal: optional minus sign, then either a single `0` or a
non-zero digit followed by digits, exactly as the JSON number grammar used by
`json.loads` (so `01` is not a single number). -/
def parseNumber (l : List Char) : Option (Json × List Char) :=
  let p := match l with
           | '-' :: t => (true, t)
           | _ => (false, l)
  match p.2 with
  | c :: t =>
    if c == '0' then numGuard p.1 0 t
    else if c.isDigit then
      numGuard p.1 (digitsToNat (c :: t.takeWhile Char.isDigit)) (t.dropWhile Char.isDigit)
    else none
  | [] => none

/-- Parsing mode: a single value, the items of an array after `[`, or the
members of an object after the opening brace. -/
inductive PMode where
  | value
  | items
  | fields

/-- Result of one parsing-mode run. -/
inductive PRes where
  | val (j : Json)
  | items (xs : List Json)
  | fields (ms : List (String × Json))

/-- Recursive-descent JSON reader, a direct rendering of the grammar
`json.loads` accepts (minus floats).  The three mutually recursive procedures
are merged into one function over `PMode` so that recursion is structural in
the fuel and the definition evaluates by kernel reduction.  Each recursive call
follows the consumption of at least one input character, so any fuel of at
least twice the input length is enough. -/
def parseP : Nat → PMode → List Char → Option (PRes × List Char)
  | 0, _, _ => none
  | fuel + 1, .value, l =>
    (match skipWs l with
     | [] => none
     | c :: t =>
       if c == '"' then
         match parseStrAux [] t with
         | some (s, r) => some (.val (.str s), r)
         | none => none
       else if c == lbrace then
         match skipWs t with
         | [] => none
         | c2 :: t2 =>
           if c2 == rbrace then some (.val (.obj []), t2)
           else
             match parseP fuel .fields (c2 :: t2) with
             | some (.fields ms, r) => some (.val (.obj ms), r)
             | _ => none
       else if c == '[' then
         match skipWs t with
         | [] => none
         | c2 :: t2 =>
           if c2 == ']' then some (.val (.arr []), t2)
           else
             match parseP fuel .items (c2 :: t2) with
             | some (.items xs, r) => some (.val (.arr xs), r)
             | _ => none
       else if c == 't' then
         match t with
         | 'r' :: 'u' :: 'e' :: r => some (.val (.bool true), r)
         | _ => none
       else if c == 'f' then
         match t with
         | 'a' :: 'l' :: 's' :: 'e' :: r => some (.val (.bool false), r)
         | _ => none
       else if c == 'n' then
         match t with
         | 'u' :: 'l' :: 'l' :: r => some (.val (.null), r)
         | _ => none
       else if c == '-' || c.isDigit then
         match parseNumber (c :: t) with
         | some (j, r) => some (.val j, r)
         | none => none
       else none)
  | fuel + 1, .items, l =>
    (match parseP fuel .value l with
     | some (.val j, r) =>
       (match skipWs r with
        | ',' :: r2 =>
          (match parseP fuel .items r2 with
           | some (.items xs, r3) => some (.items (j :: xs), r3)
           | _ => none)
        | ']' :: r2 => some (.items [j], r2)
        | _ => none)
     | _ => none)
  | fuel + 1, .fields, l =>
    (match skipWs l with
     | '"' :: t =>
       (match parseStrAux [] t with
        | some (k, r) =>
          (match skipWs r with
           | ':' :: r2 =>
             (match parseP fuel .value r2 with
              | some (.val v, r3) =>
                (match skipWs r3 with
                 | ',' :: r4 =>
                   (match parseP fuel .fields r4 with
                    | some (.fields ms, r5) => some (.fields ((k, v) :: ms), r5)
                    | _ => none)
                 | c5 :: r5 => if c5 == rbrace then some (.fields [(k, v)], r5) else none
                 | [] => none)
              | _ => none)
           | _ => none)
        | none => none)
     | _ => none)

/-- Run the reader on an already-trimmed document and require that the value
spans the whole input, as `json.loads` does after skipping trailing
whitespace. -/
def loadsAux (u : List Char) : Option Json :=
  match parseP (2 * u.length + 4) .value u with
  | some (.val j, []) => some j
  | _ => none

/-- Model of Python's `json.loads`: skip surrounding whitespace, read one JSON
value, require end of input; `none` models a raised `json.JSONDecodeError`. -/
def loads (s : String) : Option Json := loadsAux (trimJson s.data)

/-- Characters removed by Python's `str.strip()` with no argument (the ASCII
whitespace characters; the rarer Unicode whitespace Python also strips never
occurs in this pipeline's fixed markers). -/
def isPyWs (c : Char) : Bool :=
  c == ' ' || c == '\t' || c == '\n' || c == '\r' || c.toNat == 11 || c.toNat == 12

/-- Python's two-sided `strip` for an arbitrary character class. -/
def stripWith (p : Char → Bool) (l : List Char) : List Char :=
  ((l.dropWhile p).reverse.dropWhile p).reverse

/-- Model of `text.strip()`. -/
def pyStripWs (l : List Char) : List Char := stripWith isPyWs l

/-- Backtick test for `strip("`")`. -/
def isTick (c : Char) : Bool := c == '`'

/-- Model of `text.strip("`")`. -/
def stripBackticks (l : List Char) : List Char := stripWith isTick l

/-- The pattern removed by `replace("```json", "")`. -/
def fencePat : List Char := ['`', '`', '`', 'j', 's', 'o', 'n']

/-- Model of Python's `str.replace("```json", "")`: scan left to right, remove
every non-overlapping occurrence, never rescan produced text.  Any occurrence
skips seven characters of the original, so the input length is enough fuel. -/
def replaceFenceAux : Nat → List Char → List Char
  | 0, l => l
  | fuel + 1, l =>
    if fencePat.isPrefixOf l then
      replaceFenceAux fuel (l.drop 7)
    else
      match l with
      | [] => []
      | c :: t => c :: replaceFenceAux fuel t

/-- Model of `text.replace("```json", "")`. -/
def replaceFence (l : List Char) : List Char := replaceFenceAux l.length l

/-- The cleaning chain of `generate_content` line 152:
`response.text.strip().replace("```json", "").strip("`")`. -/
def stripPipeline (s : String) : String :=
  String.mk (stripBackticks (replaceFence (pyStripWs s.data)))

/-- A response wrapped in fenced-code-block markers: a leading ```` ```json ````
fence and trailing backticks. -/
def wrapFence (s : String) : String := "```json\n" ++ s ++ "\n```"

/-- The `language_names` dictionary of `generate_content` (lines 65--69), in
its insertion order. -/
def language_names : List (String × String) :=
  [("en", "English"), ("ta", "Tamil"), ("te", "Telugu"), ("hi", "Hindi"),
   ("ml", "Malayalam"), ("kn", "Kannada"), ("bn", "Bengali"), ("mr", "Marathi"),
   ("gu", "Gujarati"), ("es", "Spanish"), ("fr", "French"), ("de", "German")]

/-- Line 70: `language_names.get(target_lang_code, "English")`; a missing code
(including Python's `None`) falls back to `"English"`. -/
def targetLanguage (target_lang_code : Option String) : String :=
  match target_lang_code with
  | none => "English"
  | some code =>
    match language_names.find? (fun p => p.1 == code) with
    | some p => p.2
    | none => "English"

/-- Fixed fragments of the Notes prompt f-string (lines 77--84). -/
def notesPromptA : String :=
  "\n        You are a note-generation assistant.\n        Translate the following transcript into **"

/-- Second fixed fragment of the Notes prompt. -/
def notesPromptB : String :=
  "**. Then, summarize the translated text into study notes.\n        The **ENTIRE final output**, including **all headings, subheadings, and bullet points**, must be generated ONLY in **"

/-- Third fixed fragment of the Notes prompt. -/
def notesPromptC : String :=
  "**. Do not leave any English words or formatting terms untranslated.\n        Use markdown with bold headings (##) and bullet points (-).\n\n        TRANSCRIPT: "

/-- Common closing fragment of all three prompt f-strings. -/
def promptEnd : String := "\n        "

/-- The Notes prompt of lines 77--84 with the f-string holes filled in. -/
def notesPrompt (transcript target_language : String) : String :=
  notesPromptA ++ target_language ++ notesPromptB ++ target_language ++
    notesPromptC ++ transcript ++ promptEnd

/-- First fixed fragment of the Quiz prompt f-string (lines 88--93). -/
def quizPromptA : String :=
  "\n        Based on the lecture transcript, translate the content and generate 5 multiple-choice quiz questions.\n        The entire output (questions, options, and correct answers) must be in **"

/-- Second fixed fragment of the Quiz prompt. -/
def quizPromptB : String :=
  "**.\n        \n        TRANSCRIPT:\n\n"

/-- The Quiz prompt of lines 88--93 with the f-string holes filled in. -/
def quizPrompt (transcript target_language : String) : String :=
  quizPromptA ++ target_language ++ quizPromptB ++ transcript ++ promptEnd

/-- First fixed fragment of the Flashcards prompt f-string (lines 117--122). -/
def flashPromptA : String :=
  "\n        Translate the lecture transcript into **"

/-- Second fixed fragment of the Flashcards prompt. -/
def flashPromptB : String :=
  "**. Then, extract 10 key terms and their precise definitions.\n        The terms and definitions must be entirely in **"

/-- Third fixed fragment of the Flashcards prompt. -/
def flashPromptC : String :=
  "**.\n        \n        TRANSCRIPT:\n\n"

/-- The Flashcards prompt of lines 117--122 with the f-string holes filled in. -/
def flashcardsPrompt (transcript target_language : String) : String :=
  flashPromptA ++ target_language ++ flashPromptB ++ target_language ++
    flashPromptC ++ transcript ++ promptEnd

/-- The quiz response schema dictionary (lines 94--113) as a JSON value. -/
def quizSchema : Json :=
  .obj
    [("type", .str "array"),
     ("items", .obj
       [("type", .str "object"),
        ("properties", .obj
          [("question", .obj [("type", .str "string")]),
           ("options", .obj
             [("type", .str "object"),
              ("properties", .obj
                [("A", .obj [("type", .str "string")]),
                 ("B", .obj [("type", .str "string")]),
                 ("C", .obj [("type", .str "string")])]),
              ("required", .arr [.str "A", .str "B", .str "C"])]),
           ("correct", .obj
             [("type", .str "string"),
              ("enum", .arr [.str "A", .str "B", .str "C"])])]),
        ("required", .arr [.str "question", .str "options", .str "correct"])])]

/-- The flashcard response schema dictionary (lines 123--132) as a JSON value. -/
def flashcardsSchema : Json :=
  .obj
    [("type", .str "array"),
     ("items", .obj
       [("type", .str "object"),
        ("properties", .obj
          [("term", .obj [("type", .str "string")]),
           ("definition", .obj [("type", .str "string")])])])]

/-- The prompt-construction and schema-selection part of `generate_content`
(lines 64--134): for a known content type the prompt string and the optional
response schema, for anything else `none` (the `"Invalid content type
selected."` branch, where no prompt is built and no API call is made). -/
def build_request (content_type transcript : String)
    (target_lang_code : Option String) : Option (String × Option Json) :=
  let target_language := targetLanguage target_lang_code
  if content_type = "Notes" then
    some (notesPrompt transcript target_language, none)
  else if content_type = "Quiz" then
    some (quizPrompt transcript target_language, some quizSchema)
  else if content_type = "Flashcards" then
    some (flashcardsPrompt transcript target_language, some flashcardsSchema)
  else none

/-- Outcome of the one outbound call `client.models.generate_content(...)`:
either the response text or a raised `APIError` with its message.  The service
is external, so the call is a parameter of the embedding. -/
inductive ApiOutcome where
  | apiError (msg : String)
  | ok (text : String)

/-- What `generate_content` returns to its caller: either a plain string
(notes, or any of the error-message strings) or a parsed JSON value. -/
inductive GenOut where
  | text (s : String)
  | json (j : Json)

/-- Embedding of `generate_content(transcript, content_type, target_lang_code)`
(lines 59--163).  `gemini_loaded` is the module-level `GEMINI_LOADED` flag and
`api` the external service; everything else follows the source line by line:
the not-initialized short circuit, prompt/schema dispatch, the `APIError`
handler, and for schema-bound requests the cleaning chain followed by
`json.loads`, with the `json.JSONDecodeError` handler producing the
diagnostic string with the first 200 characters of the raw response. -/
def generate_content (gemini_loaded : Bool) (api : String → Option Json → ApiOutcome)
    (transcript content_type : String) (target_lang_code : Option String) : GenOut :=
  if gemini_loaded then
    match build_request content_type transcript target_lang_code with
    | none => .text "Invalid content type selected."
    | some (prompt, schema) =>
      match api prompt schema with
      | .apiError e =>
        .text ("Gemini API Error: Please check your API key and network connection. Error: " ++ e)
      | .ok raw =>
        match schema with
        | some _ =>
          match loads (stripPipeline raw) with
          | some j => .json j
          | none =>
            .text ("JSON Parsing Failed. The AI did not output valid JSON. Raw output: "
                   ++ raw.take 200 ++ "...")
        | none => .text raw
  else
    .text "Generative AI Failed: Gemini API not initialized. Please set the GEMINI_API_KEY."

/-- Embedding of `load_history()` (lines 201--209) over the optional text
content of `lecture_history.json`: `none` is a missing file, a text that fails
to parse (a raised `json.JSONDecodeError`) yields `[]`, and otherwise the
parsed value is returned unchanged, whatever its shape. -/
def load_history (file : Option String) : Json :=
  match file with
  | none => .arr []
  | some text =>
    match loads text with
    | some j => j
    | none => .arr []

/-- Abstract state of `lecture_history.json` for chains of `save_history`
calls: absent, corrupt (text that does not parse), or a file whose text parses
to `j`.  `save_history` only ever writes `json.dump(history, f)` of a value
`history`, and `json.load` inverts `json.dump`, so the stored JSON value is a
faithful abstraction of the file text along the save/load cycle. -/
inductive HistoryFile where
  | absent
  | corrupt
  | stored (j : Json)

/-- The same `load_history()` read over the abstract file state. -/
def load_history_file : HistoryFile → Json
  | .absent => .arr []
  | .corrupt => .arr []
  | .stored j => j

/-- Embedding of `save_history(entry)` (lines 211--218): load, prepend with
`history.insert(0, entry)`, truncate with `history[:20]`, write the new list
and return it.  When the loaded value is not a list, `history.insert` raises
an uncaught `AttributeError`, modelled by `none`. -/
def save_history (entry : Json) (f : HistoryFile) : Option (Json × HistoryFile) :=
  match load_history_file f with
  | .arr h =>
    some (.arr ((entry :: h).take 20), .stored (.arr ((entry :: h).take 20)))
  | _ => none

/-- A sequence of `save_history` calls, one per entry, oldest first; `none` as
soon as one call raises. -/
def save_history_all (entries : List Json) (f : HistoryFile) : Option HistoryFile :=
  entries.foldl
    (fun of e => of.bind (fun st => (save_history e st).map Prod.snd)) (some f)

/-- Substring containment, used to state that a prompt carries the transcript
and the language name verbatim. -/
def StrIncludes (hay needle : String) : Prop :=
  ∃ p q : String, hay = p ++ needle ++ q

/-! Claims about the history store. -/

theorem take20_cons (e : Json) (L : List Json) :
    (e :: L.take 20).take 20 = (e :: L).take 20 := by
  rw [List.take_cons (by omega), List.take_cons (by omega), List.take_take]
  norm_num

theorem take19_take20 (L : List Json) :
    List.take 19 (List.take 20 L) = List.take 19 L := by
  rw [List.take_take]
  norm_num

theorem save_history_stored (e : Json) (L : List Json) :
    save_history e (.stored (.arr (L.take 20))) =
      some (.arr ((e :: L).take 20), .stored (.arr ((e :: L).take 20))) := by
  simp [save_history, load_history_file, take19_take20]

theorem save_history_all_cons_some (e : Json) (es : List Json) (f g : HistoryFile)
    (r : Json) (h : save_history e f = some (r, g)) :
    save_history_all (e :: es) f = save_history_all es g := by
  simp [save_history_all, List.foldl_cons, h]

theorem save_history_all_stored (es : List Json) : ∀ L : List Json,
    save_history_all es (.stored (.arr (L.take 20))) =
      some (.stored (.arr ((es.reverse ++ L).take 20))) := by
  induction es with
  | nil => intro L; simp [save_history_all]
  | cons e es ih =>
    intro L
    rw [save_history_all_cons_some e es _ _ _ (save_history_stored e L), ih (e :: L)]
    simp [List.reverse_cons, List.append_assoc]

theorem save_history_all_absent (e : Json) (es : List Json) :
    save_history_all (e :: es) .absent =
      some (.stored (.arr ((e :: es).reverse.take 20))) := by
  have h1 : save_history e .absent = some (.arr [e], .stored (.arr [e])) := rfl
  have h2 : (Json.arr [e]) = Json.arr (([e] : List Json).take 20) := rfl
  rw [save_history_all_cons_some e es _ _ _ h1, h2, save_history_all_stored es [e]]
  simp [List.reverse_cons]

/-- C3: twenty-one sequential `save_history` calls into an initially absent
store leave exactly the twenty most recent entries, newest first (the oldest
entry is dropped, the rest appear in reverse save order); in general each
`save_history` prepends the new entry to the loaded list and truncates to at
most 20 before writing. -/
theorem C3_save_history_retention (es : List Json) (h : es.length = 21) :
    save_history_all es .absent = some (.stored (.arr ((es.drop 1).reverse))) ∧
      (es.drop 1).reverse.length = 20 ∧
      (∀ (e : Json) (st : HistoryFile) (l : List Json), load_history_file st = .arr l →
        save_history e st =
          some (.arr ((e :: l).take 20), .stored (.arr ((e :: l).take 20)))) := by
  obtain ⟨e, es', rfl⟩ : ∃ e es', es = e :: es' := by
    cases es with
    | nil => simp at h
    | cons e es' => exact ⟨e, es', rfl⟩
  have hlen : es'.length = 20 := by simpa using h
  have htake : (e :: es').reverse.take 20 = es'.reverse := by
    rw [List.reverse_cons]
    have h20 : es'.reverse.length = 20 := by simp [hlen]
    rw [← h20, List.take_left]
  refine ⟨?_, ?_, ?_⟩
  · rw [save_history_all_absent e es', htake]
    simp
  · simp [hlen]
  · intro e2 st l hst
    simp [save_history, hst]

theorem C3_save_history_retention_witness :
    (List.replicate 21 Json.null).length = 21 ∧
      save_history_all (List.replicate 21 Json.null) .absent =
        some (.stored (.arr (((List.replicate 21 Json.null).drop 1).reverse))) := by
  have h : (List.replicate 21 Json.null).length = 21 := by decide
  exact ⟨h, (C3_save_history_retention _ h).1⟩

/-- C4: whenever `save_history e` completes (returning the new list and file
state), an immediate `load_history` read of that state yields a list whose
first element is `e`. -/
theorem C4_save_then_load_head (e : Json) (f : HistoryFile) (res : Json × HistoryFile)
    (h : save_history e f = some res) :
    ∃ rest, load_history_file res.2 = Json.arr (e :: rest) := by
  unfold save_history at h
  cases hf : load_history_file f with
  | arr l =>
    rw [hf] at h
    simp at h
    refine ⟨l.take 19, ?_⟩
    rw [← h]
    rfl
  | null => rw [hf] at h; simp at h
  | bool b => rw [hf] at h; simp at h
  | num n => rw [hf] at h; simp at h
  | str s => rw [hf] at h; simp at h
  | obj ms => rw [hf] at h; simp at h

theorem C4_save_then_load_head_witness :
    save_history (Json.num 1) .absent =
        some (Json.arr [Json.num 1], .stored (Json.arr [Json.num 1])) ∧
      ∃ rest,
        load_history_file (HistoryFile.stored (Json.arr [Json.num 1])) =
          Json.arr (Json.num 1 :: rest) := by
  have h : save_history (Json.num 1) .absent =
      some (Json.arr [Json.num 1], .stored (Json.arr [Json.num 1])) := rfl
  exact ⟨h, C4_save_then_load_head _ _ _ h⟩

/-- C6: with the Gemini client not initialized, every call to
`generate_content`, whatever the transcript, content type and language, returns
the fixed not-initialized message; no request (and hence no network call) is
made, as the result does not depend on the `api` parameter at all. -/
theorem C6_not_initialized (api : String → Option Json → ApiOutcome)
    (transcript content_type : String) (lc : Option String) :
    generate_content false api transcript content_type lc =
      .text "Generative AI Failed: Gemini API not initialized. Please set the GEMINI_API_KEY." :=
  rfl

/-- C7: an unknown content type (with the client initialized) yields the fixed
invalid-content-type message, and `build_request` returns `none`: no prompt is
built and no API call is made (the result is the same for every `api`). -/
theorem C7_invalid_content_type (api : String → Option Json → ApiOutcome)
    (transcript : String) (lc : Option String) (ct : String)
    (h1 : ct ≠ "Notes") (h2 : ct ≠ "Quiz") (h3 : ct ≠ "Flashcards") :
    generate_content true api transcript ct lc = .text "Invalid content type selected." ∧
      build_request ct transcript lc = none := by
  have hb : build_request ct transcript lc = none := by
    simp [build_request, h1, h2, h3]
  exact ⟨by simp [generate_content, hb], hb⟩

theorem C7_invalid_content_type_witness :
    ("Podcast" : String) ≠ "Notes" ∧
      generate_content true (fun _ _ => ApiOutcome.ok "x") "t" "Podcast" none =
        .text "Invalid content type selected." ∧
      build_request "Podcast" "t" none = none := by
  refine ⟨by decide, ?_, ?_⟩
  · exact (C7_invalid_content_type _ "t" none "Podcast" (by decide) (by decide) (by decide)).1
  · exact (C7_invalid_content_type (fun _ _ => ApiOutcome.ok "x") "t" none "Podcast"
      (by decide) (by decide) (by decide)).2

/-- C10: `load_history` on a file whose text parses as JSON returns exactly the
parsed value, whatever its shape (no list check is performed), so callers are
not guaranteed a sequence. -/
theorem C10_load_history_returns_parsed (s : String) (j : Json)
    (h : loads s = some j) : load_history (some s) = j := by
  simp [load_history, h]

theorem C10_load_history_returns_parsed_witness :
    loads "\"hello\"" = some (Json.str "hello") ∧
      load_history (some "\"hello\"") = Json.str "hello" := by
  have h : loads "\"hello\"" = some (Json.str "hello") := rfl
  exact ⟨h, C10_load_history_returns_parsed _ _ h⟩

/-! Claims about prompt construction and the response path of
`generate_content`. -/

theorem append_promptEnd_ne_empty (x : String) : x ++ promptEnd ≠ "" := by
  intro h
  have hlen := congrArg String.length h
  rw [String.length_append] at hlen
  simp at hlen
  have h9 : promptEnd.length = 9 := rfl
  omega

/-- C5: for each of the three supported content types, and any transcript and
target-language selection, the prompt handed to the service (built on the
client-initialized path of `generate_content`) is a non-empty string containing
the transcript verbatim and the target-language name verbatim. -/
theorem C5_prompt_contains_transcript_and_language (transcript : String)
    (lc : Option String) (ct : String)
    (h : ct = "Notes" ∨ ct = "Quiz" ∨ ct = "Flashcards") :
    ∃ prompt schema, build_request ct transcript lc = some (prompt, schema) ∧
      prompt ≠ "" ∧ StrIncludes prompt transcript ∧
      StrIncludes prompt (targetLanguage lc) := by
  rcases h with rfl | rfl | rfl
  · refine ⟨notesPrompt transcript (targetLanguage lc), none, rfl,
      append_promptEnd_ne_empty _, ?_, ?_⟩
    · exact ⟨notesPromptA ++ targetLanguage lc ++ notesPromptB ++ targetLanguage lc
        ++ notesPromptC, promptEnd, by simp [notesPrompt, String.append_assoc]⟩
    · exact ⟨notesPromptA, notesPromptB ++ targetLanguage lc ++ notesPromptC
        ++ transcript ++ promptEnd, by simp [notesPrompt, String.append_assoc]⟩
  · refine ⟨quizPrompt transcript (targetLanguage lc), some quizSchema, rfl,
      append_promptEnd_ne_empty _, ?_, ?_⟩
    · exact ⟨quizPromptA ++ targetLanguage lc ++ quizPromptB, promptEnd,
        by simp [quizPrompt, String.append_assoc]⟩
    · exact ⟨quizPromptA, quizPromptB ++ transcript ++ promptEnd,
        by simp [quizPrompt, String.append_assoc]⟩
  · refine ⟨flashcardsPrompt transcript (targetLanguage lc), some flashcardsSchema, rfl,
      append_promptEnd_ne_empty _, ?_, ?_⟩
    · exact ⟨flashPromptA ++ targetLanguage lc ++ flashPromptB ++ targetLanguage lc
        ++ flashPromptC, promptEnd, by simp [flashcardsPrompt, String.append_assoc]⟩
    · exact ⟨flashPromptA, flashPromptB ++ targetLanguage lc ++ flashPromptC
        ++ transcript ++ promptEnd, by simp [flashcardsPrompt, String.append_assoc]⟩

theorem C5_prompt_contains_transcript_and_language_witness :
    (("Notes" : String) = "Notes" ∨ ("Notes" : String) = "Quiz" ∨
        ("Notes" : String) = "Flashcards") ∧
      ∃ prompt schema, build_request "Notes" "hello" none = some (prompt, schema) ∧
        prompt ≠ "" ∧ StrIncludes prompt "hello" ∧
        StrIncludes prompt (targetLanguage none) :=
  ⟨Or.inl rfl, C5_prompt_contains_transcript_and_language "hello" none "Notes" (Or.inl rfl)⟩

/-- C9: a target-language code outside the twelve entries of `language_names`
(including Python's `None`) does not fail: the language name used for the
prompt falls back to `"English"`, and e.g. the Notes prompt is built with it. -/
theorem C9_unknown_language_defaults_to_english (lc : Option String) (t : String)
    (h : ∀ c, lc = some c → c ∉ language_names.map Prod.fst) :
    targetLanguage lc = "English" ∧
      build_request "Notes" t lc = some (notesPrompt t "English", none) := by
  have htl : targetLanguage lc = "English" := by
    cases lc with
    | none => rfl
    | some c =>
      have hc := h c rfl
      have hfind : language_names.find? (fun p => p.1 == c) = none := by
        rw [List.find?_eq_none]
        intro p hp hbeq
        exact hc (List.mem_map.mpr ⟨p, hp, by simpa using hbeq⟩)
      simp [targetLanguage, hfind]
  refine ⟨htl, ?_⟩
  simp [build_request, htl]

theorem C9_unknown_language_defaults_to_english_witness :
    (∀ c, (some "zz" : Option String) = some c → c ∉ language_names.map Prod.fst) ∧
      targetLanguage (some "zz") = "English" ∧
      build_request "Notes" "t" (some "zz") = some (notesPrompt "t" "English", none) := by
  have h : ∀ c, (some "zz" : Option String) = some c →
      c ∉ language_names.map Prod.fst := by
    intro c hc
    cases hc
    decide
  exact ⟨h, C9_unknown_language_defaults_to_english (some "zz") "t" h⟩

theorem C1_counterexample :
    generate_content true (fun _ _ => ApiOutcome.ok "\x7b\x7d") "t" "Quiz" none =
        GenOut.json (Json.obj []) ∧
      ∀ xs, Json.obj ([] : List (String × Json)) ≠ Json.arr xs :=
  ⟨rfl, fun _ h => Json.noConfusion h⟩

/-- C1 (amended): on parse success the schema-bound path of `generate_content`
returns the parsed JSON value to the caller exactly as `json.loads` produced
it, with no shape validation at all — in particular no check that it is an
array, and no per-field validation. -/
theorem C1_parsed_value_returned_unvalidated (transcript : String) (lc : Option String)
    (raw : String) (j : Json) (h : loads (stripPipeline raw) = some j) :
    generate_content true (fun _ _ => ApiOutcome.ok raw) transcript "Quiz" lc =
        GenOut.json j ∧
      generate_content true (fun _ _ => ApiOutcome.ok raw) transcript "Flashcards" lc =
        GenOut.json j := by
  constructor <;> simp [generate_content, build_request, h]

theorem C1_parsed_value_returned_unvalidated_witness :
    loads (stripPipeline "[1]") = some (Json.arr [Json.num 1]) ∧
      generate_content true (fun _ _ => ApiOutcome.ok "[1]") "t" "Quiz" none =
        GenOut.json (Json.arr [Json.num 1]) := by
  have h : loads (stripPipeline "[1]") = some (Json.arr [Json.num 1]) := rfl
  exact ⟨h, (C1_parsed_value_returned_unvalidated "t" none "[1]" _ h).1⟩

/-- C8: on a schema-bound request whose response text is not valid JSON after
the cleaning chain, `generate_content` returns the diagnostic string embedding
the first 200 characters of the raw text; the embedding is a total function
into `GenOut`, so no fault propagates to the caller. -/
theorem C8_parse_failure_diagnostic (transcript : String) (lc : Option String)
    (raw : String) (h : loads (stripPipeline raw) = none) :
    generate_content true (fun _ _ => ApiOutcome.ok raw) transcript "Quiz" lc =
        .text ("JSON Parsing Failed. The AI did not output valid JSON. Raw output: "
          ++ raw.take 200 ++ "...") ∧
      generate_content true (fun _ _ => ApiOutcome.ok raw) transcript "Flashcards" lc =
        .text ("JSON Parsing Failed. The AI did not output valid JSON. Raw output: "
          ++ raw.take 200 ++ "...") := by
  constructor <;> simp [generate_content, build_request, h]

theorem C8_parse_failure_diagnostic_witness :
    loads (stripPipeline "oops") = none ∧
      generate_content true (fun _ _ => ApiOutcome.ok "oops") "t" "Quiz" none =
        .text ("JSON Parsing Failed. The AI did not output valid JSON. Raw output: "
          ++ "oops".take 200 ++ "...") := by
  have h : loads (stripPipeline "oops") = none := rfl
  exact ⟨h, (C8_parse_failure_diagnostic "t" none "oops" h).1⟩

/-! Infrastructure for C2: how `replace("```json", "")` interacts with the
seams of a fenced-code wrapper.  A separator character that does not occur in
the pattern can never be crossed by a match, so replacement distributes over
it. -/

theorem isPrefixOf_sep : ∀ (p x : List Char) (c : Char) (y : List Char), c ∉ p →
    List.isPrefixOf p (x ++ c :: y) = List.isPrefixOf p x := by
  intro p
  induction p with
  | nil => intro x c y _; simp [List.isPrefixOf]
  | cons d p ih =>
    intro x c y hc
    cases x with
    | nil =>
      have hdc : (d == c) = false :=
        beq_eq_false_iff_ne.mpr fun hd => hc (hd ▸ List.mem_cons_self d p)
      simp [List.isPrefixOf, hdc]
    | cons e x =>
      have hcp : c ∉ p := fun hm => hc (List.mem_cons_of_mem d hm)
      simp [List.isPrefixOf, ih x c y hcp]

theorem isPrefixOf_eq_append : ∀ p l : List Char,
    List.isPrefixOf p l = true → l = p ++ l.drop p.length := by
  intro p
  induction p with
  | nil => intro l _; simp
  | cons d p ih =>
    intro l h
    cases l with
    | nil => simp [List.isPrefixOf] at h
    | cons e l =>
      simp only [List.isPrefixOf, Bool.and_eq_true, beq_iff_eq] at h
      obtain ⟨rfl, h2⟩ := h
      simpa using ih l h2

theorem isPrefixOf_append_self : ∀ p z : List Char, List.isPrefixOf p (p ++ z) = true := by
  intro p
  induction p with
  | nil => intro z; simp [List.isPrefixOf]
  | cons d p ih => intro z; simp [List.isPrefixOf, ih]

theorem fence_not_prefix_of_ne (c : Char) (t : List Char) (h : c ≠ '`') :
    fencePat.isPrefixOf (c :: t) = false := by
  have : ('`' == c) = false := beq_eq_false_iff_ne.mpr (Ne.symm h)
  simp [fencePat, List.isPrefixOf, this]

theorem rfa_nil (fuel : Nat) : replaceFenceAux fuel [] = [] := by
  cases fuel <;> rfl

theorem rfa_congr : ∀ fuel1 fuel2 (l : List Char), l.length ≤ fuel1 → l.length ≤ fuel2 →
    replaceFenceAux fuel1 l = replaceFenceAux fuel2 l := by
  intro fuel1
  induction fuel1 with
  | zero =>
    intro fuel2 l h1 _
    have : l = [] := List.eq_nil_of_length_eq_zero (by omega)
    subst this
    simp [rfa_nil]
  | succ n ih =>
    intro fuel2 l h1 h2
    cases l with
    | nil => simp [rfa_nil]
    | cons c t =>
      cases fuel2 with
      | zero => simp at h2
      | succ m =>
        cases hp : fencePat.isPrefixOf (c :: t) with
        | false =>
          simp only [replaceFenceAux, hp, Bool.false_eq_true, if_false]
          simp only [List.length_cons] at h1 h2
          rw [ih m t (by omega) (by omega)]
        | true =>
          simp only [replaceFenceAux, hp, if_true]
          simp only [List.length_cons] at h1 h2
          exact ih m ((c :: t).drop 7) (by simp [List.length_drop]; omega)
            (by simp [List.length_drop]; omega)

theorem replaceFence_eq_aux (fuel : Nat) (l : List Char) (h : l.length ≤ fuel) :
    replaceFenceAux fuel l = replaceFence l :=
  rfa_congr fuel l.length l h (Nat.le_refl _)

theorem replaceFence_cons_of_not_fence (c : Char) (t : List Char)
    (h : fencePat.isPrefixOf (c :: t) = false) :
    replaceFence (c :: t) = c :: replaceFence t := by
  show replaceFenceAux (c :: t).length (c :: t) = _
  simp only [List.length_cons, replaceFenceAux, h, Bool.false_eq_true, if_false]
  rfl

theorem rfa_step_fence (n : Nat) (w : List Char) :
    replaceFenceAux (n + 1) (fencePat ++ w) = replaceFenceAux n w := by
  have hp : fencePat.isPrefixOf (fencePat ++ w) = true := isPrefixOf_append_self _ _
  have h7 : fencePat.length = 7 := rfl
  simp only [replaceFenceAux, hp, if_true]
  rw [← h7, List.drop_left]

theorem replaceFence_fence_append (z : List Char) :
    replaceFence (fencePat ++ z) = replaceFence z := by
  show replaceFenceAux (fencePat ++ z).length (fencePat ++ z) = _
  have hlen : (fencePat ++ z).length = z.length + 6 + 1 := by
    simp [fencePat, List.length_append]
  rw [hlen, rfa_step_fence]
  exact replaceFence_eq_aux _ _ (by omega)

theorem replaceFence_sep_aux : ∀ fuel (a : List Char) (c : Char) (b : List Char),
    c ∉ fencePat → (a ++ c :: b).length ≤ fuel →
    replaceFenceAux fuel (a ++ c :: b) = replaceFence a ++ c :: replaceFence b := by
  intro fuel
  induction fuel with
  | zero =>
    intro a c b _ hlen
    exfalso
    simp [List.length_append] at hlen
  | succ n ih =>
    intro a c b hc hlen
    cases hp : fencePat.isPrefixOf (a ++ c :: b) with
    | false =>
      have hpa : fencePat.isPrefixOf a = false := by
        rw [← isPrefixOf_sep fencePat a c b hc]
        exact hp
      cases a with
      | nil =>
        simp only [List.nil_append] at hp ⊢
        simp only [replaceFenceAux, hp, Bool.false_eq_true, if_false]
        rw [replaceFence_eq_aux n b (by simp [List.length_cons] at hlen; omega)]
        rfl
      | cons d a2 =>
        simp only [List.cons_append] at hp ⊢
        simp only [replaceFenceAux, hp, Bool.false_eq_true, if_false]
        rw [ih a2 c b hc (by simp [List.length_append] at hlen ⊢; omega)]
        rw [replaceFence_cons_of_not_fence d a2 hpa]
        simp
    | true =>
      have hpa : fencePat.isPrefixOf a = true := by
        rw [← isPrefixOf_sep fencePat a c b hc]
        exact hp
      have h7 : fencePat.length = 7 := rfl
      have ha := isPrefixOf_eq_append fencePat a hpa
      rw [h7] at ha
      obtain ⟨a2, rfl⟩ : ∃ a2, a = fencePat ++ a2 := ⟨a.drop 7, ha⟩
      rw [List.append_assoc, rfa_step_fence, replaceFence_fence_append]
      apply ih a2 c b hc
      simp [List.length_append, fencePat] at hlen ⊢
      omega

theorem replaceFence_sep (a : List Char) (c : Char) (b : List Char) (hc : c ∉ fencePat) :
    replaceFence (a ++ c :: b) = replaceFence a ++ c :: replaceFence b :=
  replaceFence_sep_aux (a ++ c :: b).length a c b hc (Nat.le_refl _)

theorem replaceFence_bracketed (md : List Char) :
    replaceFence ('[' :: (md ++ [']'])) = '[' :: (replaceFence md ++ [']']) := by
  have hsplit : '[' :: (md ++ [']']) = ('[' :: md) ++ (']' :: []) := by simp
  rw [hsplit, replaceFence_sep ('[' :: md) ']' [] (by decide),
    replaceFence_cons_of_not_fence '[' md (fence_not_prefix_of_ne _ _ (by decide))]
  simp [replaceFence, replaceFenceAux]

theorem stripWith_ends (p : Char → Bool) (a b : Char) (m : List Char)
    (ha : p a = false) (hb : p b = false) :
    stripWith p (a :: (m ++ [b])) = a :: (m ++ [b]) := by
  unfold stripWith
  rw [List.dropWhile_cons]
  simp only [ha, Bool.false_eq_true, if_false]
  rw [show (a :: (m ++ [b])).reverse = b :: (m.reverse ++ [a]) from by simp]
  rw [List.dropWhile_cons]
  simp only [hb, Bool.false_eq_true, if_false]
  simp

theorem stripBackticks_tail (y : List Char) :
    stripBackticks ('\n' :: (y ++ '\n' :: ['`', '`', '`'])) = '\n' :: (y ++ ['\n']) := by
  have h1 : isTick '\n' = false := rfl
  have h2 : isTick '`' = true := rfl
  unfold stripBackticks stripWith
  rw [List.dropWhile_cons]
  simp only [h1, Bool.false_eq_true, if_false]
  rw [show ('\n' :: (y ++ '\n' :: ['`', '`', '`'])).reverse =
    '`' :: '`' :: '`' :: '\n' :: (y.reverse ++ ['\n']) from by simp]
  rw [List.dropWhile_cons]
  simp only [h2, if_true]
  rw [List.dropWhile_cons]
  simp only [h2, if_true]
  rw [List.dropWhile_cons]
  simp only [h2, if_true]
  rw [List.dropWhile_cons]
  simp only [h1, Bool.false_eq_true, if_false]
  simp

theorem trimJson_sandwich (y : List Char) :
    trimJson ('\n' :: (y ++ ['\n'])) = trimJson y := by
  have hnl : isJsonWs '\n' = true := rfl
  unfold trimJson
  rw [List.dropWhile_cons]
  simp only [hnl, if_true]
  rw [List.dropWhile_append]
  cases hdw : (List.dropWhile isJsonWs y).isEmpty with
  | true =>
    simp only [hdw, if_true]
    have h0 : List.dropWhile isJsonWs y = [] := by
      cases hdwl : List.dropWhile isJsonWs y with
      | nil => rfl
      | cons c t => rw [hdwl] at hdw; simp at hdw
    rw [show List.dropWhile isJsonWs ['\n'] = [] from rfl, h0]
  | false =>
    simp only [hdw, Bool.false_eq_true, if_false]
    rw [show (List.dropWhile isJsonWs y ++ ['\n']).reverse =
      '\n' :: (List.dropWhile isJsonWs y).reverse from by simp]
    rw [List.dropWhile_cons]
    simp only [hnl, if_true]

theorem loads_mk (x : List Char) : loads (String.mk x) = loadsAux (trimJson x) := rfl

/-- C2: for every JSON array, a service response consisting of the array's
serialization wrapped in fenced-code-block markers (a leading ```` ```json ````
fence and trailing backticks) is stripped by the cleaning chain so that parsing
yields exactly the same structured result as the unwrapped response would
through the same path. -/
theorem C2_fenced_wrapper_same_parse (l : List Json) :
    loads (stripPipeline (wrapFence (dumps (Json.arr l)))) =
      loads (stripPipeline (dumps (Json.arr l))) := by
  obtain ⟨M, hM⟩ : ∃ M : String, dumps (Json.arr l) = "[" ++ M ++ "]" :=
    ⟨joinComma (l.attach.map fun x => dumps x.1), by simp [dumps]⟩
  have hdata : (dumps (Json.arr l)).data = '[' :: (M.data ++ [']']) := by
    rw [hM]
    simp [String.data_append]
  have hlb : isPyWs '[' = false := rfl
  have hrb : isPyWs ']' = false := rfl
  have htk : isPyWs '`' = false := rfl
  have hside1 : stripPipeline (dumps (Json.arr l)) =
      String.mk ('[' :: (replaceFence M.data ++ [']'])) := by
    unfold stripPipeline pyStripWs
    rw [hdata, stripWith_ends isPyWs '[' ']' M.data hlb hrb, replaceFence_bracketed]
    unfold stripBackticks
    rw [stripWith_ends isTick '[' ']' (replaceFence M.data) rfl rfl]
  have hwdata : (wrapFence (dumps (Json.arr l))).data =
      fencePat ++ ('\n' :: (('[' :: (M.data ++ [']'])) ++ '\n' :: ['`', '`', '`'])) := by
    unfold wrapFence
    rw [String.data_append, String.data_append, hdata]
    rw [show ("```json\n" : String).data = fencePat ++ ['\n'] from rfl]
    rw [show ("\n```" : String).data = '\n' :: ['`', '`', '`'] from rfl]
    simp [List.append_assoc]
  have hshape : fencePat ++ ('\n' :: (('[' :: (M.data ++ [']'])) ++ '\n' :: ['`', '`', '`'])) =
      '`' :: ((['`', '`', 'j', 's', 'o', 'n'] ++
        '\n' :: (('[' :: (M.data ++ [']'])) ++ '\n' :: ['`', '`'])) ++ ['`']) := by
    simp [fencePat, List.append_assoc]
  have hside2 : stripPipeline (wrapFence (dumps (Json.arr l))) =
      String.mk ('\n' :: (('[' :: (replaceFence M.data ++ [']'])) ++ ['\n'])) := by
    unfold stripPipeline pyStripWs
    rw [hwdata, hshape, stripWith_ends isPyWs '`' '`' _ htk htk, ← hshape,
      replaceFence_fence_append]
    have h1 : replaceFence ('\n' :: (('[' :: (M.data ++ [']'])) ++ '\n' :: ['`', '`', '`'])) =
        '\n' :: (('[' :: (replaceFence M.data ++ [']'])) ++ '\n' :: ['`', '`', '`']) := by
      rw [show ('\n' :: (('[' :: (M.data ++ [']'])) ++ '\n' :: ['`', '`', '`'])) =
        [] ++ '\n' :: (('[' :: (M.data ++ [']'])) ++ '\n' :: ['`', '`', '`']) from rfl]
      rw [replaceFence_sep [] '\n' _ (by decide),
        replaceFence_sep ('[' :: (M.data ++ [']'])) '\n' ['`', '`', '`'] (by decide),
        replaceFence_bracketed]
      rw [show replaceFence ['`', '`', '`'] = ['`', '`', '`'] from rfl]
      rfl
    rw [h1, stripBackticks_tail]
  rw [hside1, hside2, loads_mk, loads_mk, trimJson_sandwich]

end LectureToNotes
